import Mathlib

/-!
Shallow embedding of the staking / validator-lifecycle core of the penumbra
repository, together with the transparent output-proof verifier.

Sources embedded:
  * src/stake/src/rate.rs            (RateData, BaseRateData and their operations)
  * src/stake/src/validator_state.rs (ValidatorState)
  * src/pd/src/validator_set.rs      (ValidatorSet and its block/epoch operations)
  * src/crypto/src/proofs/transparent.rs (OutputProof::verify)

Machine-integer conventions: u64 and u128 values are Nats; an operation of the
source that can exceed the width of its Rust type applies an explicit
`% 2 ^ 64` (resp. `% 2 ^ 128`), matching wrapping semantics; a `try_into`
or an explicit source panic is modelled by Option / Except. Counters that can
never realistically approach 2 ^ 64 (epoch indices) are plain Nats.
-/

def u64Mod : Nat := 2 ^ 64

def u64Max : Nat := 2 ^ 64 - 1

def u128Mod : Nat := 2 ^ 128

def u128Max : Nat := 2 ^ 128 - 1

def i64Max : Nat := 2 ^ 63 - 1

/-- Modelled from the spec: IdentityKey is the validator total-ordered
long-lived identity, used as the key of all per-validator maps. Modelled as a
Nat. -/
abbrev IdentityKey := Nat

/-- Modelled from the spec: the consensus key handed to the consensus engine
(a tendermint PublicKey in the source), compared only for equality. -/
abbrev ConsensusKey := Nat

/-- Modelled from the spec: a reward-note recipient address, treated as opaque. -/
abbrev Address := Nat

/-- The state of a validator in the validator state machine
(src/stake/src/validator_state.rs). -/
inductive ValidatorState where
  | Inactive
  | Active
  | Unbonding (unbonding_epoch : Nat)
  | Slashed
deriving DecidableEq

/-- Mirror of the source matches macro for the Unbonding variant. -/
def ValidatorState.isUnbonding : ValidatorState → Bool
  | ValidatorState.Unbonding _ => true
  | _ => false

/-- Modelled from the spec: Epoch is the pair index / duration; the struct
itself is not under src (it lives in the stake crate), only its index is read
by the embedded code. -/
structure Epoch where
  index : Nat
  duration : Nat
deriving DecidableEq

/-- Modelled from the spec: FundingStream is a recipient address plus a
commission rate in basis points (u16 in the source). The struct is not under
src; these are the two fields the embedded code reads. -/
structure FundingStream where
  address : Address
  rate_bps : Nat
deriving DecidableEq

/-- Rate data of one validator for one epoch (src/stake/src/rate.rs). -/
structure RateData where
  identity_key : IdentityKey
  epoch_index : Nat
  validator_reward_rate : Nat
  validator_exchange_rate : Nat
deriving DecidableEq

/-- Base rate data for one epoch (src/stake/src/rate.rs). -/
structure BaseRateData where
  epoch_index : Nat
  base_reward_rate : Nat
  base_exchange_rate : Nat
deriving DecidableEq

/-- RateData::next from src/stake/src/rate.rs lines 29-93. The commission sum
and the two rate products are u64 arithmetic in the source, hence the
`% u64Mod`; the panic on a commission above 100 percent is `none`. -/
def RateData.next (self : RateData) (base_rate_data : BaseRateData)
    (funding_streams : List FundingStream) (validator_state : ValidatorState) :
    Option RateData :=
  let constant_rate : RateData :=
    { identity_key := self.identity_key
      epoch_index := self.epoch_index + 1
      validator_reward_rate := self.validator_reward_rate
      validator_exchange_rate := self.validator_exchange_rate }
  match validator_state with
  | ValidatorState.Slashed => some constant_rate
  | ValidatorState.Inactive => some constant_rate
  | ValidatorState.Unbonding _ => some constant_rate
  | ValidatorState.Active =>
    let commission_rate_bps :=
      funding_streams.foldl (fun total stream => (total + stream.rate_bps) % u64Mod) 0
    if commission_rate_bps > 10000 then
      none
    else
      let validator_reward_rate :=
        ((100000000 - commission_rate_bps * 10000) * base_rate_data.base_reward_rate) % u64Mod
          / 100000000
      let validator_exchange_rate :=
        (self.validator_exchange_rate * ((self.validator_reward_rate + 100000000) % u64Mod))
          % u64Mod / 100000000
      some
        { identity_key := self.identity_key
          epoch_index := self.epoch_index + 1
          validator_reward_rate := validator_reward_rate
          validator_exchange_rate := validator_exchange_rate }

/-- Modelled from the spec: the section 4.2 description of RateData.next, with
every intermediate product widened to u128 and the result turned into a panic
(`none`) exactly when it exceeds u64. Written only for comparison against
`RateData.next`, which is translated from the source. -/
def RateData.nextSpecWide (self : RateData) (base_rate_data : BaseRateData)
    (funding_streams : List FundingStream) (validator_state : ValidatorState) :
    Option RateData :=
  let constant_rate : RateData :=
    { identity_key := self.identity_key
      epoch_index := self.epoch_index + 1
      validator_reward_rate := self.validator_reward_rate
      validator_exchange_rate := self.validator_exchange_rate }
  match validator_state with
  | ValidatorState.Slashed => some constant_rate
  | ValidatorState.Inactive => some constant_rate
  | ValidatorState.Unbonding _ => some constant_rate
  | ValidatorState.Active =>
    let commission_rate_bps :=
      funding_streams.foldl (fun total stream => total + stream.rate_bps) 0
    if commission_rate_bps > 10000 then
      none
    else
      let validator_reward_rate :=
        ((100000000 - commission_rate_bps * 10000) * base_rate_data.base_reward_rate) % u128Mod
          / 100000000
      let validator_exchange_rate :=
        (self.validator_exchange_rate * ((self.validator_reward_rate + 100000000) % u128Mod))
          % u128Mod / 100000000
      if validator_reward_rate ≤ u64Max ∧ validator_exchange_rate ≤ u64Max then
        some
          { identity_key := self.identity_key
            epoch_index := self.epoch_index + 1
            validator_reward_rate := validator_reward_rate
            validator_exchange_rate := validator_exchange_rate }
      else
        none

/-- RateData::slash from src/stake/src/rate.rs lines 116-121. The product is
u64 arithmetic; saturating_sub coincides with truncated Nat subtraction. -/
def RateData.slash (self : RateData) (slashing_penalty : Nat) : RateData :=
  { self with
    validator_reward_rate :=
      self.validator_reward_rate -
        (self.validator_reward_rate * slashing_penalty) % u64Mod / 100000000 }

/-- RateData::delegation_amount from src/stake/src/rate.rs lines 108-114:
u128 intermediates, then try_into u64 (`none` on failure). A zero exchange
rate makes the source u128 division panic, also modelled by `none`. -/
def RateData.delegation_amount (self : RateData) (unbonded_amount : Nat) : Option Nat :=
  if self.validator_exchange_rate = 0 then
    none
  else
    let q := (unbonded_amount * 100000000) % u128Mod / self.validator_exchange_rate
    if q ≤ u64Max then some q else none

/-- RateData::unbonded_amount from src/stake/src/rate.rs lines 136-142. -/
def RateData.unbonded_amount (self : RateData) (delegation_amount : Nat) : Option Nat :=
  let q := (delegation_amount * self.validator_exchange_rate) % u128Mod / 100000000
  if q ≤ u64Max then some q else none

/-- RateData::voting_power from src/stake/src/rate.rs lines 146-151. A zero
base exchange rate makes the source u128 division panic, modelled by `none`. -/
def RateData.voting_power (self : RateData) (total_delegation_tokens : Nat)
    (base_rate_data : BaseRateData) : Option Nat :=
  if base_rate_data.base_exchange_rate = 0 then
    none
  else
    let q := (total_delegation_tokens * self.validator_exchange_rate) % u128Mod
      / base_rate_data.base_exchange_rate
    if q ≤ u64Max then some q else none

/-- BaseRateData::next from src/stake/src/rate.rs lines 169-177; the product
is u64 arithmetic in the source. -/
def BaseRateData.next (self : BaseRateData) (base_reward_rate : Nat) : BaseRateData :=
  { epoch_index := self.epoch_index + 1
    base_reward_rate := base_reward_rate
    base_exchange_rate :=
      (self.base_exchange_rate * ((base_reward_rate + 100000000) % u64Mod)) % u64Mod
        / 100000000 }

/-- Error enum of src/crypto/src/proofs/transparent.rs lines 12-36. -/
inductive TransparentError where
  | InvalidSpendAuthRandomizer
  | NoteCommitmentMismatch
  | TransmissionKeyMismatch
  | ValueCommitmentMismatch
  | EphemeralPublicKeyMismatch
  | IdentityUnexpected
  | MerklePathMismatch
  | MerkleRootMismatch
  | InvalidDiversifiedAddress
  | BadNullifier
  | ProtoMalformed
deriving DecidableEq

/-- The curve, key-agreement and commitment primitives consumed by
OutputProof::verify. The spec treats them as external collaborators
(assumed correct, consumed as opaque algebraic operations), so the verifier
is embedded parametrically in them; each field names the source operation it
stands for. Boolean equality tests model the Rust PartialEq comparisons. -/
structure OutputCrypto where
  El : Type
  Pub : Type
  FqEl : Type
  FrEl : Type
  Sec : Type
  Val : Type
  NCom : Type
  VCom : Type
  isIdentity : El → Bool
  fqFromBytes : Pub → Option FqEl
  noteCommit : FqEl → Val → El → FqEl → NCom
  valueCommit : Val → FrEl → VCom
  vcomNeg : VCom → VCom
  diversifiedPublic : Sec → El → Pub
  ncomBeq : NCom → NCom → Bool
  vcomBeq : VCom → VCom → Bool
  pubBeq : Pub → Pub → Bool

/-- Witness fields of OutputProof (src/crypto/src/proofs/transparent.rs
lines 169-182). -/
structure OutputProofM (C : OutputCrypto) where
  g_d : C.El
  pk_d : C.Pub
  value : C.Val
  v_blinding : C.FrEl
  note_blinding : C.FqEl
  esk : C.Sec

/-- OutputProof::verify from src/crypto/src/proofs/transparent.rs lines
191-228, with the checks in source order: transmission-key conversion, note
commitment, value commitment, ephemeral public key, and only then the
identity check on g_d. -/
def OutputProofM.verify {C : OutputCrypto} (self : OutputProofM C)
    (value_commitment : C.VCom) (note_commitment : C.NCom) (epk : C.Pub) :
    Except TransparentError Unit :=
  match C.fqFromBytes self.pk_d with
  | none => Except.error TransparentError.TransmissionKeyMismatch
  | some transmission_key_s =>
    if C.ncomBeq note_commitment
        (C.noteCommit self.note_blinding self.value self.g_d transmission_key_s) = false then
      Except.error TransparentError.NoteCommitmentMismatch
    else if C.vcomBeq value_commitment
        (C.vcomNeg (C.valueCommit self.value self.v_blinding)) = false then
      Except.error TransparentError.ValueCommitmentMismatch
    else if C.pubBeq (C.diversifiedPublic self.esk self.g_d) epk = false then
      Except.error TransparentError.EphemeralPublicKeyMismatch
    else if C.isIdentity self.g_d then
      Except.error TransparentError.IdentityUnexpected
    else
      Except.ok ()

/-- A concrete computable instance of the crypto primitives, used to evaluate
the verifier on explicit inputs: group elements, scalars and keys are Nats,
the group identity is 0, the note commitment is the (injective) tuple of its
arguments, and diversified keys are scalar times base point. -/
@[reducible] def toyOutputCrypto : OutputCrypto :=
  { El := Nat
    Pub := Nat
    FqEl := Nat
    FrEl := Nat
    Sec := Nat
    Val := Nat
    NCom := Nat × Nat × Nat × Nat
    VCom := Nat × Nat
    isIdentity := fun e => e == 0
    fqFromBytes := fun p => some p
    noteCommit := fun nb v gd s => (nb, v, gd, s)
    valueCommit := fun v r => (v, r)
    vcomNeg := fun c => c
    diversifiedPublic := fun sec gd => sec * gd
    ncomBeq := fun a b => a == b
    vcomBeq := fun a b => a == b
    pubBeq := fun a b => a == b }

/-- The diversified base of the successful scenario in the C4 counterexample:
a non-identity element. -/
def c4gd0 : Nat := 4

/-- The output proof of the C4 counterexample: the witness of the successful
scenario with g_d replaced by the group identity. -/
def c4proof : OutputProofM toyOutputCrypto :=
  { g_d := 0
    pk_d := 5
    value := 10
    v_blinding := 3
    note_blinding := 7
    esk := 2 }

/-- Public note commitment of the C4 counterexample, built from the
non-identity diversified base c4gd0. -/
def c4nc : toyOutputCrypto.NCom :=
  toyOutputCrypto.noteCommit c4proof.note_blinding c4proof.value c4gd0 5

/-- Public value commitment of the C4 counterexample (negated, as outputs
contribute negative value). -/
def c4vc : toyOutputCrypto.VCom :=
  toyOutputCrypto.vcomNeg (toyOutputCrypto.valueCommit c4proof.value c4proof.v_blinding)

/-- Public ephemeral key of the C4 counterexample, derived from the
non-identity diversified base c4gd0. -/
def c4epk : toyOutputCrypto.Pub :=
  toyOutputCrypto.diversifiedPublic c4proof.esk c4gd0

/-- Modelled from the spec: the fields of a validator configuration that
src/pd/src/validator_set.rs reads (the full Validator struct is not under
src). -/
structure Validator where
  identity_key : IdentityKey
  consensus_key : ConsensusKey
  sequence_number : Nat
deriving DecidableEq

/-- Modelled from the spec: a validator definition that has already passed
stateless and stateful verification, carrying the configuration and the
authentication signature; auth_sig is kept as its byte representation, the
form in which end_block compares signatures. -/
structure VerifiedValidatorDefinition where
  validator : Validator
  auth_sig : List Nat
deriving DecidableEq

/-- Modelled from the spec: ValidatorStatus is identity key, voting power and
state (the struct itself is not under src). -/
structure ValidatorStatus where
  identity_key : IdentityKey
  voting_power : Nat
  state : ValidatorState
deriving DecidableEq

/-- Modelled from the spec: ValidatorInfo bundles configuration, status and
rate data of one validator (the struct itself is not under src). -/
structure ValidatorInfo where
  validator : Validator
  status : ValidatorStatus
  rate_data : RateData
deriving DecidableEq

/-- One entry of the update list sent to the consensus engine: consensus
public key and voting power (tendermint ValidatorUpdate; power is i64 on the
wire, hence the conversion check in end_block). -/
structure ValidatorUpdate where
  pub_key : ConsensusKey
  power : Nat
deriving DecidableEq

/-- The anyhow error messages produced by src/pd/src/validator_set.rs,
as an enum; each constructor names one message. -/
inductive VsError where
  | noValidatorFound
  | validatorNotFoundInStateMachine
  | validatorNotInUnbondingState
  | onlyInactiveOrUnbondingMayBeActivated
  | onlyActiveOrUnbondingMayBeSlashed
  | onlyActiveMayBeginUnbonding
  | powerOutOfRange
  | validatorSetKeyMissing
deriving DecidableEq

/-- Lookup in a BTreeMap modelled as an association list. -/
def findEntry {α : Type} (k : Nat) : List (Nat × α) → Option α
  | [] => none
  | (k1, v) :: rest => if k1 = k then some v else findEntry k rest

/-- BTreeMap insert: keeps the list sorted by key and replaces an existing
entry with the same key. -/
def insertSorted {α : Type} (k : Nat) (v : α) : List (Nat × α) → List (Nat × α)
  | [] => [(k, v)]
  | (k1, v1) :: rest =>
    if k < k1 then (k, v) :: (k1, v1) :: rest
    else if k = k1 then (k, v) :: rest
    else (k1, v1) :: insertSorted k v rest

/-- BTreeMap get_mut followed by a mutation: applies f to the entry with the
given key. -/
def updateEntry {α : Type} (k : Nat) (f : α → α) : List (Nat × α) → List (Nat × α)
  | [] => []
  | (k1, v) :: rest =>
    if k1 = k then (k1, f v) :: updateEntry k f rest
    else (k1, v) :: updateEntry k f rest

/-- The in-memory projection of validator state for the current block
(src/pd/src/validator_set.rs lines 28-71). The database Reader is an external
collaborator and is not part of the state; BTreeMaps are key-sorted
association lists. -/
structure ValidatorSet where
  validator_set : List (IdentityKey × ValidatorInfo)
  validator_definitions : List (IdentityKey × List VerifiedValidatorDefinition)
  new_validators : List ValidatorInfo
  updated_validators : List ValidatorInfo
  slashed_validators : List IdentityKey
  delegation_changes : List (IdentityKey × Int)
  epoch : Option Epoch
  next_base_rate : Option BaseRateData
  next_rates : Option (List RateData)
  tm_validator_updates : List ValidatorUpdate
  reward_notes : List (Nat × Address)
  supply_updates : List (Nat × (Nat × Nat))
deriving DecidableEq

/-- ValidatorSet::new from src/pd/src/validator_set.rs lines 74-100; its only
use of the Reader is fetching the committed validator infos, taken here as the
parameter block_validators. -/
def ValidatorSet.init (block_validators : List ValidatorInfo) (epoch : Epoch) : ValidatorSet :=
  { validator_set :=
      block_validators.foldl (fun m v => insertSorted v.validator.identity_key v m) []
    validator_definitions := []
    new_validators := []
    updated_validators := []
    slashed_validators := []
    delegation_changes := []
    epoch := some epoch
    next_base_rate := none
    next_rates := none
    tm_validator_updates := []
    reward_notes := []
    supply_updates := [] }

/-- ValidatorSet::commit_block from src/pd/src/validator_set.rs lines 105-127.
The source unwraps self.epoch (set at construction and by every end_block);
the none branch models that unreachable panic by leaving the state unchanged. -/
def ValidatorSet.commit_block (self : ValidatorSet) (new_epoch : Epoch) : ValidatorSet :=
  let s1 :=
    match self.epoch with
    | some e =>
      if new_epoch.index ≠ e.index then
        { self with
          epoch := some new_epoch
          next_base_rate := none
          next_rates := none
          reward_notes := []
          supply_updates := [] }
      else self
    | none => self
  { s1 with
    new_validators := []
    slashed_validators := []
    validator_definitions := []
    updated_validators := []
    tm_validator_updates := []
    delegation_changes := [] }

/-- ValidatorSet::get_validator_info from src/pd/src/validator_set.rs. -/
def ValidatorSet.get_validator_info (self : ValidatorSet) (identity_key : IdentityKey) :
    Option ValidatorInfo :=
  findEntry identity_key self.validator_set

/-- ValidatorSet::get_state from src/pd/src/validator_set.rs. -/
def ValidatorSet.get_state (self : ValidatorSet) (identity_key : IdentityKey) :
    Option ValidatorState :=
  (findEntry identity_key self.validator_set).map (fun x => x.status.state)

/-- ValidatorSet::get_validator_by_consensus_key from
src/pd/src/validator_set.rs lines 737-744. -/
def ValidatorSet.get_validator_by_consensus_key (self : ValidatorSet) (ck : ConsensusKey) :
    Except VsError Validator :=
  match self.validator_set.find? (fun v => v.2.validator.consensus_key == ck) with
  | some v => Except.ok v.2.validator
  | none => Except.error VsError.noValidatorFound

/-- ValidatorSet::add_validator from src/pd/src/validator_set.rs lines 544-547. -/
def ValidatorSet.add_validator (self : ValidatorSet) (validator : ValidatorInfo) : ValidatorSet :=
  { self with
    validator_set := insertSorted validator.validator.identity_key validator self.validator_set }

/-- ValidatorSet::add_supply_update from src/pd/src/validator_set.rs lines
538-540. -/
def ValidatorSet.add_supply_update (self : ValidatorSet) (id : Nat) (denom : Nat)
    (token_supply : Nat) : ValidatorSet :=
  { self with supply_updates := insertSorted id (denom, token_supply) self.supply_updates }

/-- ValidatorSet::add_validator_definition from src/pd/src/validator_set.rs
lines 562-569. -/
def ValidatorSet.add_validator_definition (self : ValidatorSet)
    (validator_definition : VerifiedValidatorDefinition) : ValidatorSet :=
  let identity_key := validator_definition.validator.identity_key
  { self with
    validator_definitions :=
      match findEntry identity_key self.validator_definitions with
      | some _ =>
        updateEntry identity_key (fun l => l ++ [validator_definition])
          self.validator_definitions
      | none => insertSorted identity_key [validator_definition] self.validator_definitions }

/-- ValidatorSet::deactivate_validator from src/pd/src/validator_set.rs lines
611-634. Mutating operations return the mutated state together with the
Result, because the source takes &mut self: mutations performed before an
early Err return persist. -/
def ValidatorSet.deactivate_validator (self : ValidatorSet) (ck : ConsensusKey) :
    ValidatorSet × Except VsError Unit :=
  match self.get_validator_by_consensus_key ck with
  | Except.error e => (self, Except.error e)
  | Except.ok validator =>
    match self.get_validator_info validator.identity_key with
    | none => (self, Except.error VsError.validatorNotFoundInStateMachine)
    | some current_info =>
      match current_info.status.state with
      | ValidatorState.Unbonding _ =>
        ({ self with
           validator_set :=
             updateEntry validator.identity_key
               (fun vi => { vi with status := { vi.status with state := ValidatorState.Inactive } })
               self.validator_set },
         Except.ok ())
      | _ => (self, Except.error VsError.validatorNotInUnbondingState)

/-- ValidatorSet::activate_validator from src/pd/src/validator_set.rs lines
638-665. -/
def ValidatorSet.activate_validator (self : ValidatorSet) (ck : ConsensusKey) :
    ValidatorSet × Except VsError Unit :=
  match self.get_validator_by_consensus_key ck with
  | Except.error e => (self, Except.error e)
  | Except.ok validator =>
    match self.get_validator_info validator.identity_key with
    | none => (self, Except.error VsError.validatorNotFoundInStateMachine)
    | some current_info =>
      let mark_active : ValidatorSet × Except VsError Unit :=
        ({ self with
           validator_set :=
             updateEntry validator.identity_key
               (fun vi => { vi with status := { vi.status with state := ValidatorState.Active } })
               self.validator_set },
         Except.ok ())
      match current_info.status.state with
      | ValidatorState.Inactive => mark_active
      | ValidatorState.Unbonding _ => mark_active
      | _ => (self, Except.error VsError.onlyInactiveOrUnbondingMayBeActivated)

/-- ValidatorSet::slash_validator from src/pd/src/validator_set.rs lines
669-701. Note that the identity key is pushed onto slashed_validators before
the current state is inspected, so the push persists even when an error is
returned. The two sequential get_mut mutations of mark_slashed (set state,
then slash the rate) are two updateEntry applications. -/
def ValidatorSet.slash_validator (self : ValidatorSet) (ck : ConsensusKey)
    (slashing_penalty : Nat) : ValidatorSet × Except VsError Unit :=
  match self.get_validator_by_consensus_key ck with
  | Except.error e => (self, Except.error e)
  | Except.ok validator =>
    let s1 := { self with
                slashed_validators := self.slashed_validators ++ [validator.identity_key] }
    match s1.get_validator_info validator.identity_key with
    | none => (s1, Except.error VsError.validatorNotFoundInStateMachine)
    | some current_info =>
      let mark_slashed : ValidatorSet × Except VsError Unit :=
        let s2 := { s1 with
                    validator_set :=
                      updateEntry validator.identity_key
                        (fun vi =>
                          { vi with status := { vi.status with state := ValidatorState.Slashed } })
                        s1.validator_set }
        ({ s2 with
           validator_set :=
             updateEntry validator.identity_key
               (fun vi => { vi with rate_data := vi.rate_data.slash slashing_penalty })
               s2.validator_set },
         Except.ok ())
      match current_info.status.state with
      | ValidatorState.Active => mark_slashed
      | ValidatorState.Unbonding _ => mark_slashed
      | _ => (s1, Except.error VsError.onlyActiveOrUnbondingMayBeSlashed)

/-- ValidatorSet::unbond_validator from src/pd/src/validator_set.rs lines
705-733: on an Active validator, voting power is set to 0 and the state to
Unbonding (two sequential get_mut mutations). -/
def ValidatorSet.unbond_validator (self : ValidatorSet) (ck : ConsensusKey)
    (unbonding_epoch : Nat) : ValidatorSet × Except VsError Unit :=
  match self.get_validator_by_consensus_key ck with
  | Except.error e => (self, Except.error e)
  | Except.ok validator =>
    match self.get_validator_info validator.identity_key with
    | none => (self, Except.error VsError.validatorNotFoundInStateMachine)
    | some current_info =>
      match current_info.status.state with
      | ValidatorState.Active =>
        let s1 := { self with
                    validator_set :=
                      updateEntry validator.identity_key
                        (fun vi => { vi with status := { vi.status with voting_power := 0 } })
                        self.validator_set }
        ({ s1 with
           validator_set :=
             updateEntry validator.identity_key
               (fun vi =>
                 { vi with status :=
                     { vi.status with state := ValidatorState.Unbonding unbonding_epoch } })
               s1.validator_set },
         Except.ok ())
      | _ => (self, Except.error VsError.onlyActiveMayBeginUnbonding)

/-- The comparator of the voting-power sort in process_epoch_transitions
(ascending voting power, as in the source). Rust sort_by is a stable sort, and
a stable sort is extensionally unique, so it is embedded as insertion sort. -/
def powerLe (a b : ValidatorInfo) : Prop :=
  a.status.voting_power ≤ b.status.voting_power

instance : DecidableRel powerLe :=
  fun a b => Nat.decLe a.status.voting_power b.status.voting_power

instance : IsTotal ValidatorInfo powerLe :=
  ⟨fun a b => Nat.le_total a.status.voting_power b.status.voting_power⟩

instance : IsTrans ValidatorInfo powerLe :=
  ⟨fun _ _ _ h1 h2 => Nat.le_trans h1 h2⟩

/-- One iteration of the loop of process_epoch_transitions
(src/pd/src/validator_set.rs lines 335-369): the status is the snapshot taken
before the loop, the mutations go to the live state. -/
def pet_step (top_validators : List IdentityKey) (current_epoch : Epoch)
    (unbonding_epochs : Nat) (s : ValidatorSet) (vi : ValidatorInfo) :
    ValidatorSet × Except VsError Unit :=
  let validator_status := vi.status
  let first :=
    if validator_status.state = ValidatorState.Inactive ∨
        validator_status.state.isUnbonding = true then
      if top_validators.contains validator_status.identity_key then
        s.activate_validator vi.validator.consensus_key
      else
        (s, Except.ok ())
    else if validator_status.state = ValidatorState.Active then
      if top_validators.contains validator_status.identity_key then
        (s, Except.ok ())
      else
        s.unbond_validator vi.validator.consensus_key (current_epoch.index + unbonding_epochs)
    else
      (s, Except.ok ())
  match first with
  | (s1, Except.error e) => (s1, Except.error e)
  | (s1, Except.ok _) =>
    match validator_status.state with
    | ValidatorState.Unbonding unbonding_epoch =>
      if unbonding_epoch ≤ current_epoch.index then
        s1.deactivate_validator vi.validator.consensus_key
      else
        (s1, Except.ok ())
    | _ => (s1, Except.ok ())

/-- The loop of process_epoch_transitions over the sorted snapshot; the ?
operator of the source returns at the first error, keeping the mutations made
so far. -/
def pet_loop (top_validators : List IdentityKey) (current_epoch : Epoch)
    (unbonding_epochs : Nat) : ValidatorSet → List ValidatorInfo →
    ValidatorSet × Except VsError Unit
  | s, [] => (s, Except.ok ())
  | s, vi :: rest =>
    match pet_step top_validators current_epoch unbonding_epochs s vi with
    | (s1, Except.ok _) => pet_loop top_validators current_epoch unbonding_epochs s1 rest
    | (s1, Except.error e) => (s1, Except.error e)

/-- ValidatorSet::process_epoch_transitions from src/pd/src/validator_set.rs
lines 310-372: snapshot the validator infos, sort them by ascending voting
power, take the first active_validator_limit of the sorted list as
top_validators, then run the transition loop. -/
def ValidatorSet.process_epoch_transitions (self : ValidatorSet)
    (active_validator_limit : Nat) (current_epoch : Epoch) (unbonding_epochs : Nat) :
    ValidatorSet × Except VsError Unit :=
  let validators_info := self.validator_set.map (fun kv => kv.2)
  let sorted := List.insertionSort powerLe validators_info
  let top_validators :=
    (sorted.take active_validator_limit).map (fun v => v.validator.identity_key)
  pet_loop top_validators current_epoch unbonding_epochs self sorted

/-- The comparator of the first sort in the conflict-resolution code of
end_block (src/pd/src/validator_set.rs lines 171-175): descending sequence
number, embedded as a stable insertion sort. -/
def seqGe (a b : VerifiedValidatorDefinition) : Prop :=
  b.validator.sequence_number ≤ a.validator.sequence_number

instance : DecidableRel seqGe :=
  fun a b => Nat.decLe b.validator.sequence_number a.validator.sequence_number

instance : IsTotal VerifiedValidatorDefinition seqGe :=
  ⟨fun a b =>
    (Nat.le_total b.validator.sequence_number a.validator.sequence_number).elim Or.inl Or.inr⟩

instance : IsTrans VerifiedValidatorDefinition seqGe :=
  ⟨fun _ _ _ h1 h2 => Nat.le_trans h2 h1⟩

/-- Lexicographic comparison of two signature byte strings, as produced by the
Ord instance of fixed-size Rust byte arrays CMP-ed in end_block. -/
def bytesLe : List Nat → List Nat → Bool
  | [], _ => true
  | _ :: _, [] => false
  | a :: as, b :: bs => if a < b then true else if b < a then false else bytesLe as bs

/-- The comparator of the signature sort in end_block
(src/pd/src/validator_set.rs lines 215-219): ascending auth_sig bytes. -/
def sigLe (a b : VerifiedValidatorDefinition) : Prop :=
  bytesLe a.auth_sig b.auth_sig = true

instance : DecidableRel sigLe :=
  fun a b => Bool.decEq (bytesLe a.auth_sig b.auth_sig) true

/-- One step of the bucket-building loop of end_block
(src/pd/src/validator_set.rs lines 186-208): a definition joins the bucket
with its sequence number, or opens a new bucket at the end of the list. -/
def pushIntoBucket : List (Nat × List VerifiedValidatorDefinition) →
    VerifiedValidatorDefinition → List (Nat × List VerifiedValidatorDefinition)
  | [], d => [(d.validator.sequence_number, [d])]
  | (s, b) :: rest, d =>
    if s = d.validator.sequence_number then (s, b ++ [d]) :: rest
    else (s, b) :: pushIntoBucket rest d

/-- The conflict-resolution procedure of end_block for the definition list of
one identity key (src/pd/src/validator_set.rs lines 169-223): sort descending
by sequence number; a single definition wins outright; otherwise bucket by
sequence number, take the first bucket (the highest sequence number), sort it
by ascending signature bytes, and pick its first element. The source indexes
buckets[0] and bucket[0], which panic on an empty list; those unreachable
panics are `none`. -/
def resolve_definitions (defs : List VerifiedValidatorDefinition) :
    Option VerifiedValidatorDefinition :=
  let sorted := List.insertionSort seqGe defs
  match sorted with
  | [] => none
  | [d] => some d
  | h :: t =>
    let buckets := List.foldl pushIntoBucket [] (h :: t)
    match buckets with
    | [] => none
    | b0 :: _ =>
      match List.insertionSort sigLe b0.2 with
      | [] => none
      | c :: _ => some c

/-- The closure make_validator of end_block (src/pd/src/validator_set.rs lines
141-161): a fresh ValidatorInfo in Inactive state, voting power 0, reward
rate 0 and exchange rate 1. -/
def make_validator (epoch : Epoch) (v : VerifiedValidatorDefinition) : ValidatorInfo :=
  { validator := v.validator
    status :=
      { identity_key := v.validator.identity_key
        voting_power := 0
        state := ValidatorState.Inactive }
    rate_data :=
      { identity_key := v.validator.identity_key
        epoch_index := epoch.index
        validator_reward_rate := 0
        validator_exchange_rate := 1 } }

/-- The loop of end_block over the resolved definitions
(src/pd/src/validator_set.rs lines 227-257): an existing validator keeps its
status and rate data but takes the new configuration and joins
updated_validators; a new identity joins the validator set Inactive and is
pushed to new_validators. The unwrap of get_mut (unreachable for well-keyed
maps) is the validatorSetKeyMissing error. -/
def apply_definitions (epoch : Epoch) : ValidatorSet →
    List (IdentityKey × VerifiedValidatorDefinition) → Except VsError ValidatorSet
  | s, [] => Except.ok s
  | s, (ik, d) :: rest =>
    if s.validator_set.any (fun kv => kv.2.validator.identity_key == ik) then
      match findEntry ik s.validator_set with
      | some old =>
        let updated := { old with validator := d.validator }
        apply_definitions epoch
          { s with
            validator_set :=
              updateEntry ik (fun vi => { vi with validator := d.validator }) s.validator_set
            updated_validators := s.updated_validators ++ [updated] }
          rest
      | none => Except.error VsError.validatorSetKeyMissing
    else
      let new_validator := make_validator epoch d
      apply_definitions epoch
        { (s.add_validator new_validator) with
          new_validators := s.new_validators ++ [new_validator] }
        rest

/-- The consensus-update emission of end_block (src/pd/src/validator_set.rs
lines 266-285): the full validator set is mapped to consensus key and power,
power being the voting power for Active validators and 0 otherwise; the
try_into of the i64 wire type fails when the power exceeds i64::MAX. -/
def tm_updates_of : List (IdentityKey × ValidatorInfo) →
    Except VsError (List ValidatorUpdate)
  | [] => Except.ok []
  | (_, v) :: rest =>
    let power := if v.status.state = ValidatorState.Active then v.status.voting_power else 0
    if power ≤ i64Max then
      match tm_updates_of rest with
      | Except.ok us => Except.ok ({ pub_key := v.validator.consensus_key, power := power } :: us)
      | Except.error e => Except.error e
    else
      Except.error VsError.powerOutOfRange

/-- ValidatorSet::end_block from src/pd/src/validator_set.rs lines 136-288:
set the epoch, resolve conflicting definitions per identity key, apply them,
then emit the tendermint validator updates. -/
def ValidatorSet.end_block (self : ValidatorSet) (epoch : Epoch) :
    Except VsError ValidatorSet :=
  let s0 := { self with epoch := some epoch }
  let resolved :=
    s0.validator_definitions.filterMap
      (fun p => (resolve_definitions p.2).map (fun d => (p.1, d)))
  match apply_definitions epoch s0 resolved with
  | Except.error e => Except.error e
  | Except.ok s1 =>
    match tm_updates_of s1.validator_set with
    | Except.error e => Except.error e
    | Except.ok updates => Except.ok { s1 with tm_validator_updates := updates }

/-- A validator info record with the given identity key, consensus key,
voting power and state, used to build concrete validator sets. -/
def sampleValidatorInfo (ik ck power : Nat) (st : ValidatorState) : ValidatorInfo :=
  { validator := { identity_key := ik, consensus_key := ck, sequence_number := 0 }
    status := { identity_key := ik, voting_power := power, state := st }
    rate_data :=
      { identity_key := ik
        epoch_index := 0
        validator_reward_rate := 0
        validator_exchange_rate := 1 } }

/-- Three Inactive validators with voting powers 100, 200 and 300. -/
def c1set : ValidatorSet :=
  ValidatorSet.init
    [sampleValidatorInfo 1 1 100 ValidatorState.Inactive,
     sampleValidatorInfo 2 2 200 ValidatorState.Inactive,
     sampleValidatorInfo 3 3 300 ValidatorState.Inactive]
    { index := 1, duration := 10 }

/-- A validator set carrying one pending supply update in a block that does
not cross an epoch boundary. -/
def c2set : ValidatorSet :=
  (ValidatorSet.init [] { index := 5, duration := 8640 }).add_supply_update 7 3 100

/-- Rate data whose u64 exchange-rate product overflows 64 bits. -/
def c3rd : RateData :=
  { identity_key := 1
    epoch_index := 0
    validator_reward_rate := 4294967296
    validator_exchange_rate := 4294967296 }

/-- A base rate for the overflow example. -/
def c3base : BaseRateData :=
  { epoch_index := 0, base_reward_rate := 30000, base_exchange_rate := 100000000 }

/-- Rate data with reward rate 1, on which truncation direction is visible. -/
def c5rd : RateData :=
  { identity_key := 9
    epoch_index := 0
    validator_reward_rate := 1
    validator_exchange_rate := 100000000 }

/-- An Active validator carrying c5rd. -/
def c5info : ValidatorInfo :=
  { validator := { identity_key := 9, consensus_key := 4, sequence_number := 0 }
    status := { identity_key := 9, voting_power := 50, state := ValidatorState.Active }
    rate_data := c5rd }

/-- A validator set with a single Active validator carrying c5rd. -/
def c5set : ValidatorSet :=
  ValidatorSet.init [c5info] { index := 1, duration := 10 }

/-- Definition with sequence number 1 and signature bytes 0xAA. -/
def c6d1 : VerifiedValidatorDefinition :=
  { validator := { identity_key := 42, consensus_key := 170, sequence_number := 1 }
    auth_sig := [170] }

/-- Definition with sequence number 2 and signature bytes 0x03. -/
def c6d2 : VerifiedValidatorDefinition :=
  { validator := { identity_key := 42, consensus_key := 3, sequence_number := 2 }
    auth_sig := [3] }

/-- Definition with sequence number 2 and signature bytes 0x01. -/
def c6d3 : VerifiedValidatorDefinition :=
  { validator := { identity_key := 42, consensus_key := 1, sequence_number := 2 }
    auth_sig := [1] }

/-- A block in which the three conflicting definitions for identity 42 were
submitted in order. -/
def c6block : ValidatorSet :=
  (((ValidatorSet.init [] { index := 1, duration := 10 }).add_validator_definition
        c6d1).add_validator_definition
      c6d2).add_validator_definition
    c6d3

/-- A validator set with one Inactive validator, for exercising end_block. -/
def c8set : ValidatorSet :=
  ValidatorSet.init [sampleValidatorInfo 5 7 0 ValidatorState.Inactive]
    { index := 1, duration := 10 }

/-- The state end_block produces from c8set at epoch 2. -/
def c8res : ValidatorSet :=
  { validator_set := [(5, sampleValidatorInfo 5 7 0 ValidatorState.Inactive)]
    validator_definitions := []
    new_validators := []
    updated_validators := []
    slashed_validators := []
    delegation_changes := []
    epoch := some { index := 2, duration := 10 }
    next_base_rate := none
    next_rates := none
    tm_validator_updates := [{ pub_key := 7, power := 0 }]
    reward_notes := []
    supply_updates := [] }

/-- A validator set with one Active validator, for exercising unbonding. -/
def c9set : ValidatorSet :=
  ValidatorSet.init [sampleValidatorInfo 2 8 77 ValidatorState.Active]
    { index := 1, duration := 10 }

/-- A validator set with one Inactive validator, for exercising the slashing
error path. -/
def c10set : ValidatorSet :=
  ValidatorSet.init [sampleValidatorInfo 3 9 0 ValidatorState.Inactive]
    { index := 1, duration := 10 }

theorem findEntry_updateEntry {α : Type} (k : Nat) (f : α → α) (l : List (Nat × α)) :
    findEntry k (updateEntry k f l) = (findEntry k l).map f := by
  induction l with
  | nil => rfl
  | cons hd tl ih =>
    rcases hd with ⟨k1, v⟩
    by_cases hk : k1 = k
    · simp [updateEntry, findEntry, hk]
    · simp [updateEntry, findEntry, hk, ih]

theorem findEntry_updateEntry_ne {α : Type} (k k2 : Nat) (f : α → α) (l : List (Nat × α))
    (hne : k2 ≠ k) : findEntry k2 (updateEntry k f l) = findEntry k2 l := by
  induction l with
  | nil => rfl
  | cons hd tl ih =>
    rcases hd with ⟨k1, v⟩
    by_cases hk : k1 = k
    · have hu : updateEntry k f ((k1, v) :: tl) = (k1, f v) :: updateEntry k f tl := by
        simp [updateEntry, hk]
      have hk1 : k1 ≠ k2 := by
        rw [hk]
        exact Ne.symm hne
      rw [hu]
      simp [findEntry, hk1, ih]
    · have hu : updateEntry k f ((k1, v) :: tl) = (k1, v) :: updateEntry k f tl := by
        simp [updateEntry, hk]
      rw [hu]
      by_cases hk2 : k1 = k2
      · simp [findEntry, hk2]
      · simp [findEntry, hk2, ih]

theorem bytesLe_refl (xs : List Nat) : bytesLe xs xs = true := by
  induction xs with
  | nil => rfl
  | cons a as ih => simp [bytesLe, ih]

theorem bytesLe_total (xs ys : List Nat) : bytesLe xs ys = true ∨ bytesLe ys xs = true := by
  induction xs generalizing ys with
  | nil => exact Or.inl rfl
  | cons a as ih =>
    cases ys with
    | nil => exact Or.inr rfl
    | cons b bs =>
      rcases Nat.lt_trichotomy a b with hab | hab | hab
      · exact Or.inl (by simp [bytesLe, hab])
      · subst hab
        rcases ih bs with h | h
        · exact Or.inl (by simp [bytesLe, h])
        · exact Or.inr (by simp [bytesLe, h])
      · exact Or.inr (by simp [bytesLe, hab])

theorem bytesLe_trans (xs ys zs : List Nat) (h1 : bytesLe xs ys = true)
    (h2 : bytesLe ys zs = true) : bytesLe xs zs = true := by
  induction xs generalizing ys zs with
  | nil => rfl
  | cons a as ih =>
    cases ys with
    | nil => simp [bytesLe] at h1
    | cons b bs =>
      cases zs with
      | nil => simp [bytesLe] at h2
      | cons c cs =>
        rcases Nat.lt_trichotomy a b with hab | hab | hab
        · rcases Nat.lt_trichotomy b c with hbc | hbc | hbc
          · simp [bytesLe, Nat.lt_trans hab hbc]
          · subst hbc
            simp [bytesLe, hab]
          · simp [bytesLe, hbc, Nat.lt_asymm hbc] at h2
        · subst hab
          rcases Nat.lt_trichotomy a c with hac | hac | hac
          · simp [bytesLe, hac]
          · subst hac
            simp [bytesLe, Nat.lt_irrefl] at h1 h2 ⊢
            exact ih bs cs h1 h2
          · simp [bytesLe, hac, Nat.lt_asymm hac] at h2
        · simp [bytesLe, hab, Nat.lt_asymm hab] at h1

theorem tm_updates_of_ok (l : List (IdentityKey × ValidatorInfo)) (us : List ValidatorUpdate)
    (h : tm_updates_of l = Except.ok us) :
    us = l.map (fun kv =>
      { pub_key := kv.2.validator.consensus_key
        power :=
          if kv.2.status.state = ValidatorState.Active then kv.2.status.voting_power else 0 }) := by
  induction l generalizing us with
  | nil =>
    have h1 : Except.ok ([] : List ValidatorUpdate) = Except.ok us := h
    injection h1 with h2
    rw [← h2]
    rfl
  | cons hd tl ih =>
    rcases hd with ⟨k, v⟩
    simp only [tm_updates_of] at h
    by_cases hp :
        (if v.status.state = ValidatorState.Active then v.status.voting_power else 0) ≤ i64Max
    · rw [if_pos hp] at h
      rcases htl : tm_updates_of tl with e | us1
      · rw [htl] at h
        exact absurd h (by simp)
      · rw [htl] at h
        have h2 : Except.ok (ValidatorUpdate.mk v.validator.consensus_key
            (if v.status.state = ValidatorState.Active then v.status.voting_power else 0) :: us1) =
            Except.ok us := h
        injection h2 with h3
        subst h3
        simp [ih us1 htl]
    · rw [if_neg hp] at h
      exact absurd h (by simp)

theorem foldl_pushIntoBucket_cons (l : List VerifiedValidatorDefinition) :
    ∀ (k : Nat) (b : List VerifiedValidatorDefinition)
      (rest : List (Nat × List VerifiedValidatorDefinition)),
    List.foldl pushIntoBucket ((k, b) :: rest) l =
      (k, b ++ l.filter (fun d => d.validator.sequence_number == k)) ::
        List.foldl pushIntoBucket rest
          (l.filter (fun d => !(d.validator.sequence_number == k))) := by
  induction l with
  | nil =>
    intro k b rest
    simp
  | cons d t ih =>
    intro k b rest
    by_cases hd : k = d.validator.sequence_number
    · have hstep : pushIntoBucket ((k, b) :: rest) d = (k, b ++ [d]) :: rest := by
        simp [pushIntoBucket, hd]
      have hfilter1 : (d :: t).filter (fun x => x.validator.sequence_number == k) =
          d :: t.filter (fun x => x.validator.sequence_number == k) := by
        simp [List.filter, hd.symm]
      have hfilter2 : (d :: t).filter (fun x => !(x.validator.sequence_number == k)) =
          t.filter (fun x => !(x.validator.sequence_number == k)) := by
        simp [List.filter, hd.symm]
      rw [List.foldl_cons, hstep, hfilter1, hfilter2, ih]
      simp
    · have hstep : pushIntoBucket ((k, b) :: rest) d = (k, b) :: pushIntoBucket rest d := by
        simp [pushIntoBucket, hd]
      have hne : (d.validator.sequence_number == k) = false := by
        simp
        exact fun h => hd (Eq.symm h)
      have hfilter1 : (d :: t).filter (fun x => x.validator.sequence_number == k) =
          t.filter (fun x => x.validator.sequence_number == k) := by
        simp [List.filter, hne]
      have hfilter2 : (d :: t).filter (fun x => !(x.validator.sequence_number == k)) =
          d :: t.filter (fun x => !(x.validator.sequence_number == k)) := by
        simp [List.filter, hne]
      rw [List.foldl_cons, hstep, ih, hfilter1, hfilter2, List.foldl_cons]

/-- C7: for every RateData.next call with validator state Inactive, Unbonding
or Slashed, the returned rate data keeps both rates and increments the epoch
index by one, regardless of the base rate and funding streams supplied. -/
theorem c7_next_nonactive_holds_rates (rd : RateData) (base : BaseRateData)
    (streams : List FundingStream) (e : Nat) :
    RateData.next rd base streams ValidatorState.Inactive =
      some { rd with epoch_index := rd.epoch_index + 1 } ∧
    RateData.next rd base streams (ValidatorState.Unbonding e) =
      some { rd with epoch_index := rd.epoch_index + 1 } ∧
    RateData.next rd base streams ValidatorState.Slashed =
      some { rd with epoch_index := rd.epoch_index + 1 } :=
  ⟨rfl, rfl, rfl⟩

/-- C1: the claim (only the top-N validators by voting power may be Active
after process_epoch_transitions, and Inactive validators among the top N are
activated) fails on the code: with three Inactive validators of powers
100, 200 and 300 and a limit of 2, the code sorts ascending and takes the
first two, so it activates the validators with powers 100 and 200 and leaves
the strongest one Inactive. -/
theorem c1_process_epoch_transitions_activates_lowest_power :
    (c1set.process_epoch_transitions 2 { index := 1, duration := 10 } 30).2 = Except.ok () ∧
    (c1set.process_epoch_transitions 2 { index := 1, duration := 10 } 30).1.get_state 1 =
      some ValidatorState.Active ∧
    (c1set.process_epoch_transitions 2 { index := 1, duration := 10 } 30).1.get_state 2 =
      some ValidatorState.Active ∧
    (c1set.process_epoch_transitions 2 { index := 1, duration := 10 } 30).1.get_state 3 =
      some ValidatorState.Inactive :=
  ⟨rfl, rfl, rfl, rfl⟩

/-- C2 counterexample: a supply update recorded during a block survives a
commit_block whose new epoch has the same index, so the claim that all eight
accumulators are empty after every commit_block fails. -/
theorem c2_supply_updates_survive_commit_block :
    (c2set.commit_block { index := 5, duration := 8640 }).supply_updates = [(7, (3, 100))] ∧
    (c2set.commit_block { index := 5, duration := 8640 }).supply_updates ≠ [] :=
  ⟨rfl, by decide⟩

/-- C2 (amended): after every commit_block the six block-scoped accumulators
(new_validators, updated_validators, slashed_validators, delegation_changes,
tm_validator_updates, validator_definitions) are empty; reward_notes and
supply_updates (together with next_base_rate and next_rates) are cleared only
when the new epoch index differs from the current one, and are retained
otherwise. -/
theorem c2_commit_block_clears_block_accumulators (s : ValidatorSet) (ne e : Epoch)
    (h : s.epoch = some e) :
    (s.commit_block ne).new_validators = [] ∧
    (s.commit_block ne).updated_validators = [] ∧
    (s.commit_block ne).slashed_validators = [] ∧
    (s.commit_block ne).delegation_changes = [] ∧
    (s.commit_block ne).tm_validator_updates = [] ∧
    (s.commit_block ne).validator_definitions = [] ∧
    (ne.index ≠ e.index →
      (s.commit_block ne).reward_notes = [] ∧
      (s.commit_block ne).supply_updates = [] ∧
      (s.commit_block ne).next_base_rate = none ∧
      (s.commit_block ne).next_rates = none) ∧
    (ne.index = e.index →
      (s.commit_block ne).reward_notes = s.reward_notes ∧
      (s.commit_block ne).supply_updates = s.supply_updates ∧
      (s.commit_block ne).next_base_rate = s.next_base_rate ∧
      (s.commit_block ne).next_rates = s.next_rates) := by
  by_cases hne : ne.index = e.index
  · simp [ValidatorSet.commit_block, h, hne]
  · simp [ValidatorSet.commit_block, h, hne]

theorem c2_commit_block_clears_block_accumulators_witness :
    c2set.epoch = some { index := 5, duration := 8640 } ∧
    ((c2set.commit_block { index := 6, duration := 8640 }).new_validators = [] ∧
     (c2set.commit_block { index := 6, duration := 8640 }).updated_validators = [] ∧
     (c2set.commit_block { index := 6, duration := 8640 }).slashed_validators = [] ∧
     (c2set.commit_block { index := 6, duration := 8640 }).delegation_changes = [] ∧
     (c2set.commit_block { index := 6, duration := 8640 }).tm_validator_updates = [] ∧
     (c2set.commit_block { index := 6, duration := 8640 }).validator_definitions = [] ∧
     (Epoch.index { index := 6, duration := 8640 } ≠
         Epoch.index { index := 5, duration := 8640 } →
       (c2set.commit_block { index := 6, duration := 8640 }).reward_notes = [] ∧
       (c2set.commit_block { index := 6, duration := 8640 }).supply_updates = [] ∧
       (c2set.commit_block { index := 6, duration := 8640 }).next_base_rate = none ∧
       (c2set.commit_block { index := 6, duration := 8640 }).next_rates = none) ∧
     (Epoch.index { index := 6, duration := 8640 } =
         Epoch.index { index := 5, duration := 8640 } →
       (c2set.commit_block { index := 6, duration := 8640 }).reward_notes = c2set.reward_notes ∧
       (c2set.commit_block { index := 6, duration := 8640 }).supply_updates =
         c2set.supply_updates ∧
       (c2set.commit_block { index := 6, duration := 8640 }).next_base_rate =
         c2set.next_base_rate ∧
       (c2set.commit_block { index := 6, duration := 8640 }).next_rates = c2set.next_rates)) :=
  ⟨rfl,
   c2_commit_block_clears_block_accumulators c2set { index := 6, duration := 8640 }
     { index := 5, duration := 8640 } rfl⟩

/-- C3 counterexample: in RateData.next the exchange-rate product is computed
in u64 and wraps for this input, so the result differs from the same formula
with u128 intermediates; the wrapped intermediate differs from the exact
product. -/
theorem c3_next_exchange_product_overflows_u64 :
    (RateData.next c3rd c3base [] ValidatorState.Active).map
        (fun r => r.validator_exchange_rate) = some 4294967296 ∧
    (RateData.nextSpecWide c3rd c3base [] ValidatorState.Active).map
        (fun r => r.validator_exchange_rate) = some 188762408033 ∧
    RateData.next c3rd c3base [] ValidatorState.Active ≠
      RateData.nextSpecWide c3rd c3base [] ValidatorState.Active ∧
    c3rd.validator_exchange_rate * ((c3rd.validator_reward_rate + 100000000) % u64Mod) % u64Mod ≠
      c3rd.validator_exchange_rate * (c3rd.validator_reward_rate + 100000000) :=
  ⟨rfl, rfl, by decide, by decide⟩

/-- C3 (amended): delegation_amount, unbonded_amount and voting_power widen
their intermediate products to u128, which cannot overflow for u64 inputs, and
panic exactly when the final result exceeds u64 (or on a zero divisor);
RateData.next, BaseRateData.next and slash instead multiply in plain u64,
which can overflow (see the counterexample). -/
theorem c3_conversion_ops_use_u128_intermediates (rd : RateData) (base : BaseRateData)
    (amt : Nat) (h1 : amt ≤ u64Max) (h2 : rd.validator_exchange_rate ≤ u64Max) :
    amt * 100000000 ≤ u128Max ∧
    amt * rd.validator_exchange_rate ≤ u128Max ∧
    (0 < rd.validator_exchange_rate →
      rd.delegation_amount amt =
        if amt * 100000000 / rd.validator_exchange_rate ≤ u64Max then
          some (amt * 100000000 / rd.validator_exchange_rate)
        else none) ∧
    (rd.unbonded_amount amt =
      if amt * rd.validator_exchange_rate / 100000000 ≤ u64Max then
        some (amt * rd.validator_exchange_rate / 100000000)
      else none) ∧
    (0 < base.base_exchange_rate →
      rd.voting_power amt base =
        if amt * rd.validator_exchange_rate / base.base_exchange_rate ≤ u64Max then
          some (amt * rd.validator_exchange_rate / base.base_exchange_rate)
        else none) := by
  have h100 : (100000000 : Nat) ≤ u64Max := by decide
  have hb1 : amt * 100000000 ≤ u128Max :=
    le_trans (Nat.mul_le_mul h1 h100) (by decide)
  have hb2 : amt * rd.validator_exchange_rate ≤ u128Max :=
    le_trans (Nat.mul_le_mul h1 h2) (by decide)
  have hlt : u128Max < u128Mod := by decide
  have hm1 : amt * 100000000 % u128Mod = amt * 100000000 :=
    Nat.mod_eq_of_lt (lt_of_le_of_lt hb1 hlt)
  have hm2 : amt * rd.validator_exchange_rate % u128Mod = amt * rd.validator_exchange_rate :=
    Nat.mod_eq_of_lt (lt_of_le_of_lt hb2 hlt)
  refine ⟨hb1, hb2, ?_, ?_, ?_⟩
  · intro hpos
    have hz : ¬rd.validator_exchange_rate = 0 := Nat.pos_iff_ne_zero.mp hpos
    simp [RateData.delegation_amount, hz, hm1]
  · simp [RateData.unbonded_amount, hm2]
  · intro hpos
    have hz : ¬base.base_exchange_rate = 0 := Nat.pos_iff_ne_zero.mp hpos
    simp [RateData.voting_power, hz, hm2]

theorem c3_conversion_ops_use_u128_intermediates_witness :
    (50 ≤ u64Max ∧ c3rd.validator_exchange_rate ≤ u64Max) ∧
    (50 * 100000000 ≤ u128Max ∧
     50 * c3rd.validator_exchange_rate ≤ u128Max ∧
     (0 < c3rd.validator_exchange_rate →
       c3rd.delegation_amount 50 =
         if 50 * 100000000 / c3rd.validator_exchange_rate ≤ u64Max then
           some (50 * 100000000 / c3rd.validator_exchange_rate)
         else none) ∧
     (c3rd.unbonded_amount 50 =
       if 50 * c3rd.validator_exchange_rate / 100000000 ≤ u64Max then
         some (50 * c3rd.validator_exchange_rate / 100000000)
       else none) ∧
     (0 < c3base.base_exchange_rate →
       c3rd.voting_power 50 c3base =
         if 50 * c3rd.validator_exchange_rate / c3base.base_exchange_rate ≤ u64Max then
           some (50 * c3rd.validator_exchange_rate / c3base.base_exchange_rate)
         else none)) :=
  ⟨⟨by decide, by decide⟩,
   c3_conversion_ops_use_u128_intermediates c3rd c3base 50 (by decide) (by decide)⟩

/-- C4 counterexample: with the witness g_d replaced by the group identity and
all other data consistent with a note built from the non-identity base c4gd0,
OutputProof verify returns NoteCommitmentMismatch, not IdentityUnexpected. -/
theorem c4_identity_gd_gives_note_commitment_mismatch :
    OutputProofM.verify c4proof c4vc c4nc c4epk =
      Except.error TransparentError.NoteCommitmentMismatch ∧
    toyOutputCrypto.isIdentity c4proof.g_d = true ∧
    c4nc = toyOutputCrypto.noteCommit c4proof.note_blinding c4proof.value c4gd0 5 ∧
    toyOutputCrypto.isIdentity c4gd0 = false ∧
    c4epk = toyOutputCrypto.diversifiedPublic c4proof.esk c4gd0 ∧
    c4vc = toyOutputCrypto.vcomNeg (toyOutputCrypto.valueCommit c4proof.value c4proof.v_blinding) ∧
    Except.error TransparentError.NoteCommitmentMismatch ≠
      (Except.error TransparentError.IdentityUnexpected : Except TransparentError Unit) :=
  ⟨rfl, rfl, rfl, rfl, rfl, rfl, by simp⟩

/-- C4 (amended): when the witnessed g_d makes the recomputed note commitment
differ from the public one (as happens when g_d is replaced by the identity in
an otherwise consistent proof), verify returns NoteCommitmentMismatch, because
the note-commitment check precedes the identity check; IdentityUnexpected is
returned only when the note-commitment, value-commitment and ephemeral-key
checks all pass and g_d is the identity. -/
theorem c4_identity_check_runs_after_commitment_checks {C : OutputCrypto}
    (p : OutputProofM C) (vc : C.VCom) (nc : C.NCom) (epk : C.Pub) (s : C.FqEl)
    (h1 : C.fqFromBytes p.pk_d = some s)
    (h2 : C.ncomBeq nc (C.noteCommit p.note_blinding p.value p.g_d s) = false) :
    OutputProofM.verify p vc nc epk = Except.error TransparentError.NoteCommitmentMismatch ∧
    (∀ (vc1 : C.VCom) (nc1 : C.NCom) (epk1 : C.Pub),
      OutputProofM.verify p vc1 nc1 epk1 = Except.error TransparentError.IdentityUnexpected →
      C.isIdentity p.g_d = true ∧
      C.ncomBeq nc1 (C.noteCommit p.note_blinding p.value p.g_d s) = true ∧
      C.vcomBeq vc1 (C.vcomNeg (C.valueCommit p.value p.v_blinding)) = true ∧
      C.pubBeq (C.diversifiedPublic p.esk p.g_d) epk1 = true) := by
  constructor
  · simp [OutputProofM.verify, h1, h2]
  · intro vc1 nc1 epk1 hv
    simp only [OutputProofM.verify, h1] at hv
    cases hb1 : C.ncomBeq nc1 (C.noteCommit p.note_blinding p.value p.g_d s) with
    | false =>
      rw [hb1] at hv
      simp at hv
    | true =>
      rw [hb1] at hv
      cases hb2 : C.vcomBeq vc1 (C.vcomNeg (C.valueCommit p.value p.v_blinding)) with
      | false =>
        rw [hb2] at hv
        simp at hv
      | true =>
        rw [hb2] at hv
        cases hb3 : C.pubBeq (C.diversifiedPublic p.esk p.g_d) epk1 with
        | false =>
          rw [hb3] at hv
          simp at hv
        | true =>
          rw [hb3] at hv
          cases hb4 : C.isIdentity p.g_d with
          | false =>
            rw [hb4] at hv
            simp at hv
          | true => exact ⟨rfl, rfl, rfl, rfl⟩

theorem c4_identity_check_runs_after_commitment_checks_witness :
    (toyOutputCrypto.fqFromBytes c4proof.pk_d = some 5 ∧
     toyOutputCrypto.ncomBeq c4nc
       (toyOutputCrypto.noteCommit c4proof.note_blinding c4proof.value c4proof.g_d 5) = false) ∧
    (OutputProofM.verify c4proof c4vc c4nc c4epk =
       Except.error TransparentError.NoteCommitmentMismatch ∧
     (∀ (vc1 : toyOutputCrypto.VCom) (nc1 : toyOutputCrypto.NCom)
        (epk1 : toyOutputCrypto.Pub),
       OutputProofM.verify c4proof vc1 nc1 epk1 =
         Except.error TransparentError.IdentityUnexpected →
       toyOutputCrypto.isIdentity c4proof.g_d = true ∧
       toyOutputCrypto.ncomBeq nc1
         (toyOutputCrypto.noteCommit c4proof.note_blinding c4proof.value c4proof.g_d 5) = true ∧
       toyOutputCrypto.vcomBeq vc1
         (toyOutputCrypto.vcomNeg
           (toyOutputCrypto.valueCommit c4proof.value c4proof.v_blinding)) = true ∧
       toyOutputCrypto.pubBeq
         (toyOutputCrypto.diversifiedPublic c4proof.esk c4proof.g_d) epk1 = true)) :=
  ⟨⟨rfl, rfl⟩,
   c4_identity_check_runs_after_commitment_checks c4proof c4vc c4nc c4epk 5 rfl rfl⟩

/-- C5 counterexample: slashing the Active validator whose reward rate is 1
with 1000 bps keeps the rate at 1 (the code subtracts the truncated penalty),
while the claimed formula old times (1 - 1000 / 1e8), truncated, gives 0. -/
theorem c5_slash_rate_differs_from_truncated_product :
    ((c5set.slash_validator 4 1000).1.get_validator_info 9).map
        (fun i => i.rate_data.validator_reward_rate) = some 1 ∧
    c5rd.validator_reward_rate * (100000000 - 1000) / 100000000 = 0 ∧
    ((c5set.slash_validator 4 1000).1.get_validator_info 9).map
        (fun i => i.rate_data.validator_reward_rate) ≠
      some (c5rd.validator_reward_rate * (100000000 - 1000) / 100000000) ∧
    (c5set.slash_validator 4 1000).1.get_state 9 = some ValidatorState.Slashed ∧
    (c5set.slash_validator 4 1000).2 = Except.ok () :=
  ⟨rfl, rfl, by decide, rfl, rfl⟩

/-- C5 (amended): slashing an Active validator with penalty 1000 bps
immediately marks it Slashed and appends it to slashed_validators; the new
reward rate is the old one minus the truncated penalty
old * 1000 / 1e8 (saturating) - which can exceed the truncation of
old * (1 - 1000/1e8) by one unit - the exchange rate is unchanged, and every
subsequent RateData.next call in the Slashed state returns both rates
unchanged with the epoch index incremented. -/
theorem c5_slash_active_immediate (s : ValidatorSet) (ck : ConsensusKey) (v : Validator)
    (info : ValidatorInfo)
    (h1 : s.get_validator_by_consensus_key ck = Except.ok v)
    (h2 : s.get_validator_info v.identity_key = some info)
    (h3 : info.status.state = ValidatorState.Active) :
    (s.slash_validator ck 1000).2 = Except.ok () ∧
    (s.slash_validator ck 1000).1.get_state v.identity_key = some ValidatorState.Slashed ∧
    ((s.slash_validator ck 1000).1.get_validator_info v.identity_key).map
        (fun i => i.rate_data.validator_reward_rate) =
      some (info.rate_data.validator_reward_rate -
        info.rate_data.validator_reward_rate * 1000 % u64Mod / 100000000) ∧
    ((s.slash_validator ck 1000).1.get_validator_info v.identity_key).map
        (fun i => i.rate_data.validator_exchange_rate) =
      some info.rate_data.validator_exchange_rate ∧
    (s.slash_validator ck 1000).1.slashed_validators =
      s.slashed_validators ++ [v.identity_key] ∧
    (∀ (base : BaseRateData) (streams : List FundingStream),
      RateData.next (info.rate_data.slash 1000) base streams ValidatorState.Slashed =
        some { info.rate_data.slash 1000 with
               epoch_index := (info.rate_data.slash 1000).epoch_index + 1 }) := by
  have h2f : findEntry v.identity_key s.validator_set = some info := h2
  have hstep : s.slash_validator ck 1000 =
      ({ s with
         slashed_validators := s.slashed_validators ++ [v.identity_key]
         validator_set :=
           updateEntry v.identity_key
             (fun vi => { vi with rate_data := vi.rate_data.slash 1000 })
             (updateEntry v.identity_key
               (fun vi =>
                 { vi with status := { vi.status with state := ValidatorState.Slashed } })
               s.validator_set) },
       Except.ok ()) := by
    unfold ValidatorSet.slash_validator
    rw [h1]
    dsimp only
    have hinfo1 : ValidatorSet.get_validator_info
        { s with slashed_validators := s.slashed_validators ++ [v.identity_key] }
        v.identity_key = some info := h2
    rw [hinfo1]
    dsimp only
    rw [h3]
  rw [hstep]
  refine ⟨rfl, ?_, ?_, ?_, rfl, ?_⟩
  · simp [ValidatorSet.get_state, findEntry_updateEntry, h2f]
  · simp [ValidatorSet.get_validator_info, findEntry_updateEntry, h2f, RateData.slash]
  · simp [ValidatorSet.get_validator_info, findEntry_updateEntry, h2f, RateData.slash]
  · intro base streams
    rfl

theorem c5_slash_active_immediate_witness :
    (c5set.get_validator_by_consensus_key 4 = Except.ok c5info.validator ∧
     c5set.get_validator_info c5info.validator.identity_key = some c5info ∧
     c5info.status.state = ValidatorState.Active) ∧
    ((c5set.slash_validator 4 1000).2 = Except.ok () ∧
     (c5set.slash_validator 4 1000).1.get_state c5info.validator.identity_key =
       some ValidatorState.Slashed ∧
     ((c5set.slash_validator 4 1000).1.get_validator_info c5info.validator.identity_key).map
         (fun i => i.rate_data.validator_reward_rate) =
       some (c5info.rate_data.validator_reward_rate -
         c5info.rate_data.validator_reward_rate * 1000 % u64Mod / 100000000) ∧
     ((c5set.slash_validator 4 1000).1.get_validator_info c5info.validator.identity_key).map
         (fun i => i.rate_data.validator_exchange_rate) =
       some c5info.rate_data.validator_exchange_rate ∧
     (c5set.slash_validator 4 1000).1.slashed_validators =
       c5set.slashed_validators ++ [c5info.validator.identity_key] ∧
     (∀ (base : BaseRateData) (streams : List FundingStream),
       RateData.next (c5info.rate_data.slash 1000) base streams ValidatorState.Slashed =
         some { c5info.rate_data.slash 1000 with
                epoch_index := (c5info.rate_data.slash 1000).epoch_index + 1 })) :=
  ⟨⟨rfl, rfl, rfl⟩,
   c5_slash_active_immediate c5set 4 c5info.validator c5info rfl rfl rfl⟩

/-- C6: the conflict-resolution procedure used by end_block picks, among the
definitions submitted for one identity key, one of maximal sequence number,
and among those of maximal sequence number one with minimal auth_sig bytes; in
particular, for the three definitions (seq 1 sig 0xAA, seq 2 sig 0x03,
seq 2 sig 0x01) submitted for identity 42, end_block stores the definition
with seq 2 and sig 0x01 (consensus key 1). -/
theorem c6_resolution_picks_highest_seq_smallest_sig
    (defs : List VerifiedValidatorDefinition) (d : VerifiedValidatorDefinition)
    (h : resolve_definitions defs = some d) :
    (d ∈ defs ∧
     (∀ e ∈ defs, e.validator.sequence_number ≤ d.validator.sequence_number) ∧
     (∀ e ∈ defs, e.validator.sequence_number = d.validator.sequence_number →
        bytesLe d.auth_sig e.auth_sig = true)) ∧
    ((c6block.end_block { index := 1, duration := 10 }).toOption.bind
        (fun s1 => s1.get_validator_info 42)).map
      (fun vi => (vi.validator.sequence_number, vi.validator.consensus_key)) = some (2, 1) := by
  refine ⟨?_, rfl⟩
  have hperm : (List.insertionSort seqGe defs).Perm defs := List.perm_insertionSort seqGe defs
  have hsorted : List.Sorted seqGe (List.insertionSort seqGe defs) :=
    List.sorted_insertionSort seqGe defs
  unfold resolve_definitions at h
  rcases hs : List.insertionSort seqGe defs with _ | ⟨h0, t0⟩
  · rw [hs] at h
    exact absurd h (by simp)
  rcases t0 with _ | ⟨h1, t1⟩
  · rw [hs] at h
    have hd : h0 = d := by
      simpa using h
    rw [hs] at hperm
    have hdefs : defs = [h0] := (List.perm_singleton.mp hperm.symm)
    subst hd
    subst hdefs
    refine ⟨List.mem_cons_self _ _, ?_, ?_⟩
    · intro e he
      rcases List.mem_cons.mp he with rfl | he2
      · exact Nat.le_refl _
      · exact absurd he2 (List.not_mem_nil e)
    · intro e he _
      rcases List.mem_cons.mp he with rfl | he2
      · exact bytesLe_refl _
      · exact absurd he2 (List.not_mem_nil e)
  · rw [hs] at h
    dsimp only at h
    rw [hs] at hperm
    rw [hs] at hsorted
    have hback : List.foldl pushIntoBucket [] (h0 :: h1 :: t1) =
        (h0.validator.sequence_number,
          h0 :: (h1 :: t1).filter
            (fun x => x.validator.sequence_number == h0.validator.sequence_number)) ::
          List.foldl pushIntoBucket []
            ((h1 :: t1).filter
              (fun x => !(x.validator.sequence_number == h0.validator.sequence_number))) := by
      rw [List.foldl_cons]
      rw [show pushIntoBucket [] h0 = [(h0.validator.sequence_number, [h0])] from rfl]
      rw [foldl_pushIntoBucket_cons]
      simp
    rw [hback] at h
    dsimp only at h
    rcases hsig : List.insertionSort sigLe
        (h0 :: (h1 :: t1).filter
          (fun x => x.validator.sequence_number == h0.validator.sequence_number)) with
      _ | ⟨c, cs⟩
    · rw [hsig] at h
      exact absurd h (by simp)
    · rw [hsig] at h
      have hcd : c = d := by
        simpa using h
      subst hcd
      have hsigSorted : List.Sorted sigLe (c :: cs) := by
        rw [← hsig]
        exact @List.sorted_insertionSort VerifiedValidatorDefinition sigLe _
          ⟨fun a b => bytesLe_total a.auth_sig b.auth_sig⟩
          ⟨fun a b e hab hbe => bytesLe_trans a.auth_sig b.auth_sig e.auth_sig hab hbe⟩ _
      have hpermSig : (c :: cs).Perm
          (h0 :: (h1 :: t1).filter
            (fun x => x.validator.sequence_number == h0.validator.sequence_number)) := by
        rw [← hsig]
        exact List.perm_insertionSort sigLe _
      have hBseq : ∀ x ∈ h0 :: (h1 :: t1).filter
          (fun y => y.validator.sequence_number == h0.validator.sequence_number),
          x.validator.sequence_number = h0.validator.sequence_number := by
        intro x hx
        rcases List.mem_cons.mp hx with rfl | hx2
        · rfl
        · have hx3 := List.mem_filter.mp hx2
          exact eq_of_beq hx3.2
      have hBsub : ∀ x ∈ h0 :: (h1 :: t1).filter
          (fun y => y.validator.sequence_number == h0.validator.sequence_number),
          x ∈ h0 :: h1 :: t1 := by
        intro x hx
        rcases List.mem_cons.mp hx with rfl | hx2
        · exact List.mem_cons_self _ _
        · exact List.mem_cons_of_mem _ (List.mem_filter.mp hx2).1
      have hmax : ∀ x ∈ h0 :: h1 :: t1,
          x.validator.sequence_number ≤ h0.validator.sequence_number := by
        intro x hx
        rcases List.mem_cons.mp hx with rfl | hx2
        · exact Nat.le_refl _
        · exact List.rel_of_sorted_cons hsorted x hx2
      have hminsig : ∀ x ∈ h0 :: (h1 :: t1).filter
          (fun y => y.validator.sequence_number == h0.validator.sequence_number),
          bytesLe c.auth_sig x.auth_sig = true := by
        intro x hx
        have hx2 : x ∈ c :: cs := hpermSig.mem_iff.mpr hx
        rcases List.mem_cons.mp hx2 with rfl | hx3
        · exact bytesLe_refl _
        · exact List.rel_of_sorted_cons hsigSorted x hx3
      have hcB : c ∈ h0 :: (h1 :: t1).filter
          (fun y => y.validator.sequence_number == h0.validator.sequence_number) :=
        hpermSig.mem_iff.mp (List.mem_cons_self c cs)
      have hcseq : c.validator.sequence_number = h0.validator.sequence_number := hBseq c hcB
      refine ⟨hperm.mem_iff.mp (hBsub c hcB), ?_, ?_⟩
      · intro e he
        rw [hcseq]
        exact hmax e (hperm.mem_iff.mpr he)
      · intro e he heq
        have he2 : e ∈ h0 :: h1 :: t1 := hperm.mem_iff.mpr he
        have heB : e ∈ h0 :: (h1 :: t1).filter
            (fun y => y.validator.sequence_number == h0.validator.sequence_number) := by
          rcases List.mem_cons.mp he2 with rfl | he3
          · exact List.mem_cons_self _ _
          · refine List.mem_cons_of_mem _ (List.mem_filter.mpr ⟨he3, ?_⟩)
            have : e.validator.sequence_number = h0.validator.sequence_number := by
              rw [heq, hcseq]
            simp [this]
        exact hminsig e heB

theorem c6_resolution_picks_highest_seq_smallest_sig_witness :
    resolve_definitions [c6d1, c6d2, c6d3] = some c6d3 ∧
    ((c6d3 ∈ [c6d1, c6d2, c6d3] ∧
      (∀ e ∈ [c6d1, c6d2, c6d3],
        e.validator.sequence_number ≤ c6d3.validator.sequence_number) ∧
      (∀ e ∈ [c6d1, c6d2, c6d3],
        e.validator.sequence_number = c6d3.validator.sequence_number →
          bytesLe c6d3.auth_sig e.auth_sig = true)) ∧
     ((c6block.end_block { index := 1, duration := 10 }).toOption.bind
         (fun s1 => s1.get_validator_info 42)).map
       (fun vi => (vi.validator.sequence_number, vi.validator.consensus_key)) = some (2, 1)) :=
  ⟨rfl, c6_resolution_picks_highest_seq_smallest_sig [c6d1, c6d2, c6d3] c6d3 rfl⟩

/-- C8: whenever end_block succeeds, tm_validator_updates is exactly the full
validator set mapped to consensus key and power, entrywise; the power of the
i-th entry is the voting power when the i-th validator is Active and 0
otherwise, so only Active validators report nonzero power. -/
theorem c8_end_block_tm_validator_updates (s : ValidatorSet) (epoch : Epoch)
    (s1 : ValidatorSet) (h : s.end_block epoch = Except.ok s1) :
    s1.tm_validator_updates = s1.validator_set.map (fun kv =>
      { pub_key := kv.2.validator.consensus_key
        power :=
          if kv.2.status.state = ValidatorState.Active then kv.2.status.voting_power
          else 0 }) ∧
    s1.tm_validator_updates.length = s1.validator_set.length ∧
    (∀ (i : Nat) (hi : i < s1.tm_validator_updates.length) (hj : i < s1.validator_set.length),
      (s1.tm_validator_updates.get ⟨i, hi⟩).pub_key =
        (s1.validator_set.get ⟨i, hj⟩).2.validator.consensus_key ∧
      ((s1.tm_validator_updates.get ⟨i, hi⟩).power ≠ 0 →
        (s1.validator_set.get ⟨i, hj⟩).2.status.state = ValidatorState.Active) ∧
      ((s1.validator_set.get ⟨i, hj⟩).2.status.state = ValidatorState.Active →
        (s1.tm_validator_updates.get ⟨i, hi⟩).power =
          (s1.validator_set.get ⟨i, hj⟩).2.status.voting_power) ∧
      ((s1.validator_set.get ⟨i, hj⟩).2.status.state ≠ ValidatorState.Active →
        (s1.tm_validator_updates.get ⟨i, hi⟩).power = 0)) := by
  unfold ValidatorSet.end_block at h
  dsimp only at h
  have key : tm_updates_of s1.validator_set = Except.ok s1.tm_validator_updates := by
    rcases happ : apply_definitions epoch { s with epoch := some epoch }
        (List.filterMap (fun p => (resolve_definitions p.2).map (fun d => (p.1, d)))
          s.validator_definitions) with e | s2
    · rw [happ] at h
      exact absurd h (by simp)
    · rw [happ] at h
      dsimp only at h
      rcases htm : tm_updates_of s2.validator_set with e | us
      · rw [htm] at h
        exact absurd h (by simp)
      · rw [htm] at h
        have h2 : Except.ok ({ s2 with tm_validator_updates := us } : ValidatorSet) =
            Except.ok s1 := h
        injection h2 with h3
        rw [← h3]
        exact htm
  have hmap := tm_updates_of_ok s1.validator_set s1.tm_validator_updates key
  refine ⟨hmap, ?_, ?_⟩
  · rw [hmap, List.length_map]
  · intro i hi hj
    have higet : s1.tm_validator_updates.get ⟨i, hi⟩ =
        ({ pub_key := (s1.validator_set.get ⟨i, hj⟩).2.validator.consensus_key
           power :=
             if (s1.validator_set.get ⟨i, hj⟩).2.status.state = ValidatorState.Active then
               (s1.validator_set.get ⟨i, hj⟩).2.status.voting_power
             else 0 } : ValidatorUpdate) := by
      rw [List.get_eq_getElem, List.get_eq_getElem]
      simp only [hmap, List.getElem_map]
    rw [higet]
    by_cases hact : (s1.validator_set.get ⟨i, hj⟩).2.status.state = ValidatorState.Active
    · refine ⟨rfl, fun _ => hact, fun _ => ?_, fun hn => absurd hact hn⟩
      dsimp only
      rw [if_pos hact]
    · refine ⟨rfl, fun hp => ?_, fun ha => absurd ha hact, fun _ => ?_⟩
      · refine absurd ?_ hp
        dsimp only
        rw [if_neg hact]
      · dsimp only
        rw [if_neg hact]

theorem c8_end_block_tm_validator_updates_witness :
    c8set.end_block { index := 2, duration := 10 } = Except.ok c8res ∧
    (c8res.tm_validator_updates = c8res.validator_set.map (fun kv =>
       { pub_key := kv.2.validator.consensus_key
         power :=
           if kv.2.status.state = ValidatorState.Active then kv.2.status.voting_power
           else 0 }) ∧
     c8res.tm_validator_updates.length = c8res.validator_set.length ∧
     (∀ (i : Nat) (hi : i < c8res.tm_validator_updates.length)
        (hj : i < c8res.validator_set.length),
       (c8res.tm_validator_updates.get ⟨i, hi⟩).pub_key =
         (c8res.validator_set.get ⟨i, hj⟩).2.validator.consensus_key ∧
       ((c8res.tm_validator_updates.get ⟨i, hi⟩).power ≠ 0 →
         (c8res.validator_set.get ⟨i, hj⟩).2.status.state = ValidatorState.Active) ∧
       ((c8res.validator_set.get ⟨i, hj⟩).2.status.state = ValidatorState.Active →
         (c8res.tm_validator_updates.get ⟨i, hi⟩).power =
           (c8res.validator_set.get ⟨i, hj⟩).2.status.voting_power) ∧
       ((c8res.validator_set.get ⟨i, hj⟩).2.status.state ≠ ValidatorState.Active →
         (c8res.tm_validator_updates.get ⟨i, hi⟩).power = 0))) :=
  ⟨rfl, c8_end_block_tm_validator_updates c8set { index := 2, duration := 10 } c8res rfl⟩

/-- C9: unbond_validator succeeds exactly when the referenced validator is
Active; on success it zeroes the voting power and moves the validator to
Unbonding with the given epoch, leaving every other validator untouched; on
any other current state it returns an error with the state unchanged. -/
theorem c9_unbond_validator_requires_active (s : ValidatorSet) (ck : ConsensusKey) (ue : Nat)
    (v : Validator) (info : ValidatorInfo)
    (h1 : s.get_validator_by_consensus_key ck = Except.ok v)
    (h2 : s.get_validator_info v.identity_key = some info) :
    ((s.unbond_validator ck ue).2 = Except.ok () ↔
      info.status.state = ValidatorState.Active) ∧
    (info.status.state = ValidatorState.Active →
      ((s.unbond_validator ck ue).1.get_validator_info v.identity_key =
         some { info with status :=
           { info.status with voting_power := 0, state := ValidatorState.Unbonding ue } } ∧
       (∀ ik2, ik2 ≠ v.identity_key →
         (s.unbond_validator ck ue).1.get_validator_info ik2 = s.get_validator_info ik2) ∧
       (s.unbond_validator ck ue).1.slashed_validators = s.slashed_validators)) ∧
    (info.status.state ≠ ValidatorState.Active →
      s.unbond_validator ck ue = (s, Except.error VsError.onlyActiveMayBeginUnbonding)) := by
  have h2f : findEntry v.identity_key s.validator_set = some info := h2
  rcases hst : info.status.state with _ | _ | ue0 | _
  case Active =>
    have hstep : s.unbond_validator ck ue =
        ({ s with
           validator_set :=
             updateEntry v.identity_key
               (fun vi =>
                 { vi with status :=
                     { vi.status with state := ValidatorState.Unbonding ue } })
               (updateEntry v.identity_key
                 (fun vi => { vi with status := { vi.status with voting_power := 0 } })
                 s.validator_set) },
         Except.ok ()) := by
      unfold ValidatorSet.unbond_validator
      rw [h1]
      dsimp only
      rw [h2]
      dsimp only
      rw [hst]
    refine ⟨?_, ?_, ?_⟩
    · rw [hstep]
      simp
    · intro _
      rw [hstep]
      refine ⟨?_, ?_, rfl⟩
      · simp [ValidatorSet.get_validator_info, findEntry_updateEntry, h2f]
      · intro ik2 hne
        simp [ValidatorSet.get_validator_info,
          findEntry_updateEntry_ne v.identity_key ik2 _ _ hne]
    · intro hact
      exact absurd rfl hact
  case Inactive =>
    have hstep : s.unbond_validator ck ue =
        (s, Except.error VsError.onlyActiveMayBeginUnbonding) := by
      unfold ValidatorSet.unbond_validator
      rw [h1]
      dsimp only
      rw [h2]
      dsimp only
      rw [hst]
    refine ⟨?_, ?_, fun _ => hstep⟩
    · rw [hstep]
      simp [hst]
    · intro hact
      exact ValidatorState.noConfusion hact
  case Unbonding =>
    have hstep : s.unbond_validator ck ue =
        (s, Except.error VsError.onlyActiveMayBeginUnbonding) := by
      unfold ValidatorSet.unbond_validator
      rw [h1]
      dsimp only
      rw [h2]
      dsimp only
      rw [hst]
    refine ⟨?_, ?_, fun _ => hstep⟩
    · rw [hstep]
      simp [hst]
    · intro hact
      exact ValidatorState.noConfusion hact
  case Slashed =>
    have hstep : s.unbond_validator ck ue =
        (s, Except.error VsError.onlyActiveMayBeginUnbonding) := by
      unfold ValidatorSet.unbond_validator
      rw [h1]
      dsimp only
      rw [h2]
      dsimp only
      rw [hst]
    refine ⟨?_, ?_, fun _ => hstep⟩
    · rw [hstep]
      simp [hst]
    · intro hact
      exact ValidatorState.noConfusion hact

theorem c9_unbond_validator_requires_active_witness :
    (c9set.get_validator_by_consensus_key 8 =
       Except.ok (sampleValidatorInfo 2 8 77 ValidatorState.Active).validator ∧
     c9set.get_validator_info 2 = some (sampleValidatorInfo 2 8 77 ValidatorState.Active)) ∧
    (((c9set.unbond_validator 8 31).2 = Except.ok () ↔
       (sampleValidatorInfo 2 8 77 ValidatorState.Active).status.state =
         ValidatorState.Active) ∧
     ((sampleValidatorInfo 2 8 77 ValidatorState.Active).status.state =
         ValidatorState.Active →
       ((c9set.unbond_validator 8 31).1.get_validator_info 2 =
          some { sampleValidatorInfo 2 8 77 ValidatorState.Active with status :=
            { (sampleValidatorInfo 2 8 77 ValidatorState.Active).status with
              voting_power := 0, state := ValidatorState.Unbonding 31 } } ∧
        (∀ ik2, ik2 ≠ 2 →
          (c9set.unbond_validator 8 31).1.get_validator_info ik2 =
            c9set.get_validator_info ik2) ∧
        (c9set.unbond_validator 8 31).1.slashed_validators = c9set.slashed_validators)) ∧
     ((sampleValidatorInfo 2 8 77 ValidatorState.Active).status.state ≠
         ValidatorState.Active →
       c9set.unbond_validator 8 31 =
         (c9set, Except.error VsError.onlyActiveMayBeginUnbonding))) :=
  ⟨⟨rfl, rfl⟩,
   c9_unbond_validator_requires_active c9set 8 31
     (sampleValidatorInfo 2 8 77 ValidatorState.Active).validator
     (sampleValidatorInfo 2 8 77 ValidatorState.Active) rfl rfl⟩

/-- C10: slashing a validator that is neither Active nor Unbonding returns an
error and leaves the validator states and rate data unchanged, but the
identity key has nevertheless been appended to slashed_validators, because the
push happens before the state check. -/
theorem c10_slash_error_path_still_appends (s : ValidatorSet) (ck : ConsensusKey)
    (penalty : Nat) (v : Validator) (info : ValidatorInfo)
    (h1 : s.get_validator_by_consensus_key ck = Except.ok v)
    (h2 : s.get_validator_info v.identity_key = some info)
    (h3 : info.status.state = ValidatorState.Inactive ∨
      info.status.state = ValidatorState.Slashed) :
    s.slash_validator ck penalty =
      ({ s with slashed_validators := s.slashed_validators ++ [v.identity_key] },
       Except.error VsError.onlyActiveOrUnbondingMayBeSlashed) := by
  unfold ValidatorSet.slash_validator
  rw [h1]
  dsimp only
  have hinfo1 : ValidatorSet.get_validator_info
      { s with slashed_validators := s.slashed_validators ++ [v.identity_key] }
      v.identity_key = some info := h2
  rw [hinfo1]
  dsimp only
  rcases h3 with h3 | h3
  · rw [h3]
  · rw [h3]

theorem c10_slash_error_path_still_appends_witness :
    (c10set.get_validator_by_consensus_key 9 =
       Except.ok (sampleValidatorInfo 3 9 0 ValidatorState.Inactive).validator ∧
     c10set.get_validator_info 3 =
       some (sampleValidatorInfo 3 9 0 ValidatorState.Inactive) ∧
     ((sampleValidatorInfo 3 9 0 ValidatorState.Inactive).status.state =
         ValidatorState.Inactive ∨
      (sampleValidatorInfo 3 9 0 ValidatorState.Inactive).status.state =
         ValidatorState.Slashed)) ∧
    c10set.slash_validator 9 1000 =
      ({ c10set with slashed_validators := c10set.slashed_validators ++ [3] },
       Except.error VsError.onlyActiveOrUnbondingMayBeSlashed) :=
  ⟨⟨rfl, rfl, Or.inl rfl⟩,
   c10_slash_error_path_still_appends c10set 9 1000
     (sampleValidatorInfo 3 9 0 ValidatorState.Inactive).validator
     (sampleValidatorInfo 3 9 0 ValidatorState.Inactive) rfl rfl (Or.inl rfl)⟩
